import Mathlib

set_option maxHeartbeats 1000000

/-!
Verification of the Git-Forge commit synthesizer (src/main.py, src/strategies.py)
against its natural-language specification.  Pure fragments of the Python code are
embedded as executable Lean definitions; randomness (`random.choice`,
`random.randint`) is modelled by externally supplied numeric draws, and the file
system / git history by explicit lists.
-/

namespace GitForge

/-- Whitespace characters relevant to Python `str.strip` on the strings the
source manipulates (diff output, author env strings). -/
def isWsChar (c : Char) : Bool :=
  c == ' ' || c == '\t' || c == '\n' || c == '\r'

/-- Python `str.strip()` on a character list. -/
def trimChars (l : List Char) : List Char :=
  ((l.dropWhile isWsChar).reverse.dropWhile isWsChar).reverse

/-- Python `not s.strip()`: the string is empty or all whitespace. -/
def isBlank (s : String) : Bool :=
  s.data.all isWsChar

/-- Python `s.split(sep)` on a character list; always returns at least one
group. -/
def splitCh (sep : Char) : List Char → List (List Char)
  | [] => [[]]
  | c :: rest =>
    match splitCh sep rest with
    | [] => [[]]
    | g :: gs => if c == sep then [] :: g :: gs else (c :: g) :: gs

/-- Whether `sub` occurs as a contiguous subsequence of `l`. -/
def containsSeq (sub : List Char) : List Char → Bool
  | [] => sub.isEmpty
  | c :: rest => sub.isPrefixOf (c :: rest) || containsSeq sub rest

/-- Python `s.startswith(p)`, via the underlying character lists. -/
def strStarts (s p : String) : Bool :=
  p.data.isPrefixOf s.data

/-- Python `sub in s` (substring containment). -/
def strContainsSub (s sub : String) : Bool :=
  containsSeq sub.data s.data

/-- Python `s.endswith(p)`. -/
def strEnds (s p : String) : Bool :=
  p.data.reverse.isPrefixOf s.data.reverse

/-- Python `s.lower()` (the source only compares ASCII). -/
def lowerStr (s : String) : String :=
  ⟨s.data.map Char.toLower⟩

/-- Decimal digit list of a natural number, fuel-based so that it reduces in
the kernel; models Python `str(n)` / f-string interpolation of an int. -/
def natDigitsAux : Nat → Nat → List Char
  | 0, n => [Char.ofNat (48 + n % 10)]
  | fuel + 1, n =>
    if n < 10 then [Char.ofNat (48 + n)]
    else natDigitsAux fuel (n / 10) ++ [Char.ofNat (48 + n % 10)]

def natToStr (n : Nat) : String :=
  ⟨natDigitsAux n n⟩

/-- Index of the last `'.'` in a character list, if any. -/
def lastDotIdx : List Char → Option Nat
  | [] => none
  | c :: rest =>
    match lastDotIdx rest with
    | some i => some (i + 1)
    | none => if c == '.' then some 0 else none

/-- Python `os.path.splitext`: split off the extension at the last dot, unless
every character before that dot is itself a dot (the filenames the source feeds
in never contain a path separator). -/
def splitext (s : String) : String × String :=
  match lastDotIdx s.data with
  | none => (s, "")
  | some i =>
    if (s.data.take i).all (fun c => c == '.') then (s, "")
    else (⟨s.data.take i⟩, ⟨s.data.drop i⟩)

/-- Python `pathlib.Path(f).suffix`: extension of the final path component
(empty when the only dot is leading or trailing). -/
def pathSuffix (f : String) : String :=
  let name := (splitCh '/' f.data).getLastD []
  match lastDotIdx name with
  | none => ""
  | some i => if 0 < i ∧ i < name.length - 1 then ⟨name.drop i⟩ else ""

/-- `GitStrategy._get_file_extension`: `Path(file_path).suffix.lower()`. -/
def get_file_extension (f : String) : String :=
  lowerStr (pathSuffix f)

/-- `random.choice` modelled by an externally supplied draw `r` (index modulo
the pool size). -/
def pickAt (r : Nat) (l : List String) : String :=
  l.getD (r % l.length) ""

theorem pickAt_mem (l : List String) (r : Nat) (h : l ≠ []) : pickAt r l ∈ l := by
  have hl : 0 < l.length := List.length_pos.mpr h
  have hm : r % l.length < l.length := Nat.mod_lt _ hl
  unfold pickAt
  rw [List.getD_eq_getElem l "" hm]
  exact List.getElem_mem hm

/-! ## Change sets (`_analyze_changes`, `_create_dummy_changes`,
`_generate_commit_type`) -/

/-- The change-set dictionary built by `_analyze_changes`. -/
structure Changes where
  added : List String
  modified : List String
  deleted : List String
  renamed : List (String × String)
deriving DecidableEq

/-- The per-file loop in `_generate_commit_type` over `changes['modified']`:
first file whose extension matches a known bucket decides; after the loop the
default is `'fix'`. -/
def modified_type : List String → String
  | [] => "fix"
  | f :: rest =>
    if get_file_extension f ∈ ([".py", ".js", ".ts"] : List String) then "fix"
    else if get_file_extension f ∈ ([".md", ".txt"] : List String) then "docs"
    else if get_file_extension f ∈ ([".json", ".yaml", ".yml"] : List String) then "config"
    else modified_type rest

/-- The `docs_files` filter of `_generate_commit_type`: the added files with a
doc-like extension. -/
def docs_added (added : List String) : List String :=
  added.filter (fun f => [".md", ".txt", ".rst"].contains (get_file_extension f))

/-- `GitStrategy._generate_commit_type`. -/
def generate_commit_type (changes : Changes) : String :=
  if changes.added ≠ [] then
    if docs_added changes.added ≠ []
        ∧ (docs_added changes.added).length = changes.added.length then "docs"
    else "feat"
  else if changes.deleted ≠ [] then "refactor"
  else if changes.modified ≠ [] then modified_type changes.modified
  else "chore"

/-- The dummy file pool of `_create_dummy_changes`. -/
def dummy_files : List String :=
  ["src/main.py", "tests/test_main.py", "README.md", "requirements.txt",
   "config/settings.json"]

/-- `GitStrategy._create_dummy_changes` (`r` models the `random.choice` draw). -/
def create_dummy_changes (r : Nat) : Changes :=
  ⟨[pickAt r dummy_files], [], [], []⟩

/-- The body of the parsing loop of `_analyze_changes` for one line of
`diff.strip().split('\n')`: a blank line is skipped, otherwise the line is
split on tabs and only status letters `A`/`M`/`D` (and `R` with a third field)
append an entry. -/
def applyDiffLine (line : List Char) (c : Changes) : Changes :=
  if (trimChars line).isEmpty then c
  else
    match splitCh '\t' line with
    | s :: p :: rest2 =>
      if s = ['A'] then { c with added := (⟨p⟩ : String) :: c.added }
      else if s = ['M'] then { c with modified := (⟨p⟩ : String) :: c.modified }
      else if s = ['D'] then { c with deleted := (⟨p⟩ : String) :: c.deleted }
      else if s = ['R'] then
        match rest2 with
        | q :: _ => { c with renamed := ((⟨p⟩ : String), (⟨q⟩ : String)) :: c.renamed }
        | [] => c
      else c
    | _ => c

/-- The whole parsing loop (the recursion prepends the current line's entry,
preserving the source's in-order appends). -/
def parseDiffLines : List (List Char) → Changes
  | [] => ⟨[], [], [], []⟩
  | line :: rest => applyDiffLine line (parseDiffLines rest)

/-- Parsing of one non-empty `--name-status` diff text. -/
def parse_diff (diff : String) : Changes :=
  parseDiffLines (splitCh '\n' (trimChars diff.data))

/-- `GitStrategy._analyze_changes`: prefer the staged diff, fall back to the
unstaged one; a blank effective diff yields the dummy change set. -/
def analyze_changes (staged unstaged : String) (r : Nat) : Changes :=
  let diff := if isBlank staged then unstaged else staged
  if isBlank diff then create_dummy_changes r
  else parse_diff diff

/-! ## Commit-history analysis (`_analyze_commit_history`) -/

/-- Number of messages starting with a given conventional-commit marker. -/
def count_starts (messages : List String) (p : String) : Nat :=
  (messages.filter (fun m => strStarts m p)).length

/-- The development-phase cascade of `_analyze_commit_history`.  The Python
comparisons `docs_count > total_commits * 0.3` and
`test_count > total_commits * 0.2` are float comparisons; for the reachable
domain (`total_commits ≤ 20`, counts integral) they coincide exactly with the
rational comparisons `10*docs > 3*total` and `5*test > total` used here. -/
def development_phase_of (messages : List String) : String :=
  if messages.length < 5 then "initial"
  else if count_starts messages "feat:" > count_starts messages "fix:" * 2 then
    "feature_development"
  else if count_starts messages "fix:" > count_starts messages "feat:" then
    "bug_fixing"
  else if 10 * count_starts messages "docs:" > 3 * messages.length then
    "documentation"
  else if 5 * count_starts messages "test:" > messages.length then
    "testing"
  else if count_starts messages "perf:" > 0 ∨ count_starts messages "refactor:" > 0 then
    "optimization"
  else "maintenance"

/-- The recent-focus scan of `_analyze_commit_history` over the 5 most recent
messages (priority order: api, test, doc, fix, perf; default `'setup'`). -/
def recent_focus_of (messages : List String) : String :=
  let recent := messages.take 5
  if recent.any (fun m => strContainsSub (lowerStr m) "api") then "api"
  else if recent.any (fun m => strContainsSub (lowerStr m) "test") then "testing"
  else if recent.any (fun m => strContainsSub (lowerStr m) "doc") then "documentation"
  else if recent.any (fun m => strContainsSub (lowerStr m) "fix") then "bug_fixes"
  else if recent.any (fun m => strContainsSub (lowerStr m) "perf") then "performance"
  else "setup"

/-- The feature-area extraction of `_analyze_commit_history` (a set, modelled
as the list of area names whose substring test hits some message). -/
def feature_areas_of (messages : List String) : List String :=
  (if messages.any (fun m => strContainsSub (lowerStr m) "api") then ["api"] else [])
  ++ (if messages.any (fun m => strContainsSub (lowerStr m) "auth") then ["authentication"] else [])
  ++ (if messages.any (fun m =>
        strContainsSub (lowerStr m) "db" || strContainsSub (lowerStr m) "database")
      then ["database"] else [])
  ++ (if messages.any (fun m =>
        strContainsSub (lowerStr m) "ui" || strContainsSub (lowerStr m) "frontend")
      then ["frontend"] else [])
  ++ (if messages.any (fun m => strContainsSub (lowerStr m) "test") then ["testing"] else [])
  ++ (if messages.any (fun m => strContainsSub (lowerStr m) "doc") then ["documentation"] else [])

/-- The history-derived part of the profile. -/
structure HistoryAnalysis where
  development_phase : String
  recent_focus : String
  feature_areas : List String
deriving DecidableEq

/-- `GitStrategy._analyze_commit_history`.  `history` is the list of the at
most 20 most recent commit messages; `none` models the exception path (e.g. an
empty repository with no HEAD), which returns the pre-initialized defaults. -/
def analyze_commit_history (history : Option (List String)) : HistoryAnalysis :=
  match history with
  | none => ⟨"initial", "setup", []⟩
  | some messages =>
    ⟨development_phase_of messages, recent_focus_of messages, feature_areas_of messages⟩

/-! ## Repository structure analysis (`_analyze_repository_structure`) -/

/-- Count of repository files with a given (lower-cased) extension; models the
`file_types` tally consulted through `.get(ext, 0)`. -/
def countExt (files : List String) (e : String) : Nat :=
  (files.filter (fun f => get_file_extension f == e)).length

/-- Python `max(d, key=d.get)` over an association list: the first key with the
maximal count wins. -/
def maxKeyFirst : List (String × Nat) → String
  | [] => ""
  | p :: rest => (rest.foldl (fun acc q => if q.2 > acc.2 then q else acc) p).1

/-- The `lang_counts` table of `_analyze_repository_structure`, in source
order. -/
def lang_counts (files : List String) : List (String × Nat) :=
  [("python", countExt files ".py"),
   ("javascript", countExt files ".js" + countExt files ".ts"),
   ("java", countExt files ".java"),
   ("cpp", countExt files ".cpp" + countExt files ".c"),
   ("go", countExt files ".go"),
   ("rust", countExt files ".rs")]

/-- Main-language determination: `max(lang_counts, key=lang_counts.get)` (the
dict literal is always non-empty, so the assignment always happens). -/
def main_language_of (files : List String) : String :=
  maxKeyFirst (lang_counts files)

/-- Project-type determination of `_analyze_repository_structure`. -/
def project_type_of (files : List String) (ml : String) : String :=
  if ml = "python" then
    if files.any (fun f =>
        strContainsSub (lowerStr f) "requirements" || strContainsSub f "setup.py")
    then "python_app"
    else if files.any (fun f =>
        strContainsSub (lowerStr f) "django" || strContainsSub (lowerStr f) "flask")
    then "web_app"
    else "unknown"
  else if ml = "javascript" then
    if files.any (fun f => strContainsSub f "package.json") then "node_app"
    else if files.any (fun f =>
        strContainsSub (lowerStr f) "react" || strContainsSub (lowerStr f) "vue")
    then "frontend_app"
    else "unknown"
  else "unknown"

/-- The structural/behavioral summary derived per commit (the `structure` dict
of `_analyze_repository_structure`, restricted to the fields the classifier and
synthesizers read). -/
structure Profile where
  main_language : String
  project_type : String
  has_tests : Bool
  has_docs : Bool
  has_config : Bool
  development_phase : String
  recent_focus : String
  feature_areas : List String
deriving DecidableEq

/-- `GitStrategy._analyze_repository_structure`: `files` is the working-tree
file listing (paths relative to the repository root, `.git` excluded);
`history` as in `analyze_commit_history`. -/
def analyze_repository_structure (files : List String) (history : Option (List String)) :
    Profile :=
  let ml := main_language_of files
  let h := analyze_commit_history history
  { main_language := ml
    project_type := project_type_of files ml
    has_tests := files.any (fun f =>
      strContainsSub (lowerStr f) "test" || strContainsSub (lowerStr f) "spec")
    has_docs := files.any (fun f =>
      strEnds f ".md" || strEnds f ".txt" || strEnds f ".rst")
    has_config := files.any (fun f =>
      strEnds f ".json" || strEnds f ".yaml" || strEnds f ".yml" ||
      strEnds f ".toml" || strEnds f ".ini")
    development_phase := h.development_phase
    recent_focus := h.recent_focus
    feature_areas := h.feature_areas }

/-! ## Category selection (the classifier block of
`_generate_realistic_commit_message`) -/

/-- The category-selection block of `_generate_realistic_commit_message`
("smart category selection based on project history"); `r` models the single
`random.choice` draw consumed by whichever branch is reached. -/
def classify (p : Profile) (commit_index r : Nat) : String :=
  if p.development_phase = "initial" ∨ commit_index < 3 then "initial_setup"
  else if p.development_phase = "feature_development" then
    if "api" ∈ p.feature_areas ∧ p.recent_focus = "api" then "api_development"
    else if "database" ∈ p.feature_areas then "database"
    else if "frontend" ∈ p.feature_areas then "frontend"
    else "core_features"
  else if p.development_phase = "bug_fixing" then "bug_fixes"
  else if p.development_phase = "documentation" then "documentation"
  else if p.development_phase = "testing" then "testing"
  else if p.development_phase = "optimization" then
    pickAt r ["performance", "refactoring"]
  else
    if commit_index < 8 then "core_features"
    else if commit_index < 12 then pickAt r ["api_development", "database", "frontend"]
    else if commit_index < 15 then pickAt r ["testing", "documentation", "configuration"]
    else pickAt r ["bug_fixes", "performance", "refactoring", "security"]

/-- The 12 message categories of the `commit_patterns` dict. -/
def twelve_categories : List String :=
  ["initial_setup", "core_features", "api_development", "database", "frontend",
   "testing", "documentation", "configuration", "bug_fixes", "performance",
   "refactoring", "security"]

/-! ## Message synthesis (`_generate_realistic_commit_message`) -/

def initial_setup_msgs : List String :=
  ["feat: initialize project structure",
   "feat: set up basic project configuration",
   "feat: create initial project skeleton",
   "feat: add project foundation",
   "feat: bootstrap project setup"]

def core_features_msgs : List String :=
  ["feat: implement core functionality",
   "feat: add main application logic",
   "feat: create primary business logic",
   "feat: implement key features",
   "feat: add essential functionality"]

def api_development_msgs : List String :=
  ["feat: add REST API endpoints",
   "feat: implement API routes",
   "feat: create API controllers",
   "feat: add API middleware",
   "feat: implement API authentication"]

def database_msgs : List String :=
  ["feat: add database models",
   "feat: implement data persistence",
   "feat: create database schema",
   "feat: add ORM configuration",
   "feat: implement data access layer"]

def frontend_msgs : List String :=
  ["feat: add user interface components",
   "feat: implement frontend views",
   "feat: create responsive design",
   "feat: add client-side functionality",
   "feat: implement user interactions"]

def testing_msgs : List String :=
  ["test: add unit tests",
   "test: implement integration tests",
   "test: add test coverage",
   "test: create test suite",
   "test: add automated tests"]

def documentation_msgs : List String :=
  ["docs: add API documentation",
   "docs: update README with usage examples",
   "docs: add code comments",
   "docs: create user guide",
   "docs: add deployment instructions"]

def configuration_msgs : List String :=
  ["config: update environment settings",
   "config: add deployment configuration",
   "config: update build settings",
   "config: add CI/CD configuration",
   "config: update package dependencies"]

def bug_fixes_msgs : List String :=
  ["fix: resolve authentication issue",
   "fix: correct data validation error",
   "fix: fix API response format",
   "fix: resolve database connection issue",
   "fix: correct frontend rendering bug"]

def performance_msgs : List String :=
  ["perf: optimize database queries",
   "perf: improve API response time",
   "perf: optimize frontend performance",
   "perf: reduce memory usage",
   "perf: improve loading speed"]

def refactoring_msgs : List String :=
  ["refactor: improve code structure",
   "refactor: extract common utilities",
   "refactor: reorganize project layout",
   "refactor: simplify complex logic",
   "refactor: improve code readability"]

def security_msgs : List String :=
  ["security: add input validation",
   "security: implement proper authentication",
   "security: fix security vulnerabilities",
   "security: add data encryption",
   "security: improve access controls"]

/-- `commit_patterns.get(category, commit_patterns['core_features'])`. -/
def commit_patterns_get (category : String) : List String :=
  if category = "initial_setup" then initial_setup_msgs
  else if category = "core_features" then core_features_msgs
  else if category = "api_development" then api_development_msgs
  else if category = "database" then database_msgs
  else if category = "frontend" then frontend_msgs
  else if category = "testing" then testing_msgs
  else if category = "documentation" then documentation_msgs
  else if category = "configuration" then configuration_msgs
  else if category = "bug_fixes" then bug_fixes_msgs
  else if category = "performance" then performance_msgs
  else if category = "refactoring" then refactoring_msgs
  else if category = "security" then security_msgs
  else core_features_msgs

/-- The project-type extension of the candidate pool (`messages.extend(...)`
branches keyed on `structure['project_type']`). -/
def project_type_msgs (project_type : String) : List String :=
  if project_type = "python_app" then
    ["feat: add Python package structure",
     "feat: implement Python modules",
     "feat: add Python dependencies"]
  else if project_type = "web_app" then
    ["feat: add web framework setup",
     "feat: implement web routes",
     "feat: add web templates"]
  else if project_type = "node_app" then
    ["feat: add Node.js package setup",
     "feat: implement Express routes",
     "feat: add npm dependencies"]
  else []

/-- The recent-focus extension of the candidate pool. -/
def recent_focus_msgs (recent_focus : String) : List String :=
  if recent_focus = "api" then
    ["feat: extend API functionality",
     "feat: add new API endpoint",
     "feat: improve API response handling"]
  else if recent_focus = "testing" then
    ["test: add more test coverage",
     "test: improve test reliability",
     "test: add edge case tests"]
  else if recent_focus = "documentation" then
    ["docs: improve existing documentation",
     "docs: add missing documentation",
     "docs: update API documentation"]
  else []

/-- The combined candidate pool from which
`_generate_realistic_commit_message` draws its final `random.choice`. -/
def message_pool (category project_type recent_focus : String) : List String :=
  commit_patterns_get category ++ project_type_msgs project_type
    ++ recent_focus_msgs recent_focus

/-- The final message draw of `_generate_realistic_commit_message` (`r` models
the `random.choice` over the combined pool). -/
def synthesize_message (category project_type recent_focus : String) (r : Nat) : String :=
  pickAt r (message_pool category project_type recent_focus)

/-- The conventional-commit markers the spec admits at the head of a
synthesized message. -/
def conv_markers : List String :=
  ["feat:", "fix:", "docs:", "test:", "config:", "security:", "refactor:", "perf:"]

/-- A synthesized message is acceptable when it is non-empty and starts with a
valid conventional-commit marker. -/
def msgOk (s : String) : Bool :=
  !s.data.isEmpty && conv_markers.any (fun p => strStarts s p)

/-! ## Author resolution (`_get_authors`) -/

/-- An author record from the commit config file: either not a dict at all, or
a dict with possibly missing `name`/`email` keys. -/
inductive ConfigAuthor where
  | notDict : ConfigAuthor
  | dict (name email : Option String) : ConfigAuthor
deriving DecidableEq

/-- `git.Actor`. -/
structure Actor where
  name : String
  email : String
deriving DecidableEq

/-- Python `s.strip()` on a string. -/
def trimStr (s : String) : String :=
  ⟨trimChars s.data⟩

/-- One `name:email` pair of the `GIT_AUTHORS` variable:
`author_pair.strip().split(':', 1)` with both halves stripped. -/
def parse_author_pair (pair : String) : Actor :=
  match splitCh ':' (trimChars pair.data) with
  | [] => ⟨"", ""⟩
  | n :: rest => ⟨trimStr ⟨n⟩, trimStr ⟨List.intercalate [':'] rest⟩⟩

/-- The three hardcoded default identities. -/
def default_authors : List Actor :=
  [⟨"John Doe", "john.doe@example.com"⟩,
   ⟨"Jane Smith", "jane.smith@example.com"⟩,
   ⟨"Developer", "dev@example.com"⟩]

/-- The config-derived author list of `_get_authors`: only dict entries with
both a `name` and an `email` key survive. -/
def config_actor_list (configAuthors : Option (List ConfigAuthor)) : List Actor :=
  match configAuthors with
  | some l => l.filterMap (fun a =>
      match a with
      | .dict (some n) (some e) => some ⟨n, e⟩
      | _ => none)
  | none => []

/-- The `name:email` pairs parsed out of a non-empty `GIT_AUTHORS` value:
split on commas, keep the pairs containing a colon. -/
def parsed_env_authors (authors_str : String) : List Actor :=
  (splitCh ',' authors_str.data).filterMap (fun pair =>
    if pair.contains ':' then some (parse_author_pair ⟨pair⟩) else none)

/-- The environment-variable fallback path of `_get_authors` (`authors_str`
is `os.environ.get('GIT_AUTHORS', '')`). -/
def env_actor_list (authors_str : String) : List Actor :=
  if authors_str = "" then default_authors
  else if parsed_env_authors authors_str ≠ [] then parsed_env_authors authors_str
  else [⟨"Developer", "dev@example.com"⟩]

/-- `GitStrategy._get_authors`: config list first (keeping only dict entries
with both keys), then the `GIT_AUTHORS` environment variable (`none` models an
unset variable, which `os.environ.get` turns into `''`), then the defaults. -/
def get_authors (configAuthors : Option (List ConfigAuthor)) (env : Option String) :
    List Actor :=
  if config_actor_list configAuthors ≠ [] then config_actor_list configAuthors
  else env_actor_list (env.getD "")

/-! ## Filename generation (`_generate_realistic_filename`) and the
pre-existence loop of `_create_commit` -/

/-- The base-filename pools keyed by commit-index range. -/
def file_candidates (commit_index : Nat) : List String :=
  if commit_index < 3 then
    ["setup.py", "requirements.txt", "README.md", "config.py", "main.py"]
  else if commit_index < 8 then
    ["app.py", "models.py", "utils.py", "helpers.py", "core.py"]
  else if commit_index < 12 then
    ["api.py", "routes.py", "database.py", "schema.py", "controllers.py"]
  else if commit_index < 15 then
    ["test_app.py", "test_models.py", "docs.md", "CHANGELOG.md", "CONTRIBUTING.md"]
  else
    ["fix_auth.py", "optimize_db.py", "security.py", "middleware.py", "validation.py"]

/-- `GitStrategy._generate_realistic_filename`: draw a base file, then suffix
the name with `_{commit_index}_{HHMMSS}` before the extension (`ts` is the
formatted timestamp, `r` the `random.choice` draw). -/
def generate_realistic_filename (commit_index r : Nat) (ts : String) : String :=
  let base_file := pickAt r (file_candidates commit_index)
  let ne := splitext base_file
  ne.1 ++ "_" ++ natToStr commit_index ++ "_" ++ ts ++ ne.2

/-- One pass of the collision loop in `_create_commit`:
`f"{name}_v{counter}{ext}"`. -/
def addV (file_name : String) (counter : Nat) : String :=
  let ne := splitext file_name
  ne.1 ++ "_v" ++ natToStr counter ++ ne.2

/-- Largest length of a file name in the working tree. -/
def maxLen (existing : List String) : Nat :=
  existing.foldr (fun s m => max s.length m) 0

theorem length_le_maxLen {s : String} :
    ∀ {existing : List String}, s ∈ existing → s.length ≤ maxLen existing := by
  intro existing
  induction existing with
  | nil => intro h; cases h
  | cons a t ih =>
    intro h
    rcases List.mem_cons.mp h with rfl | h2
    · exact Nat.le_max_left _ _
    · exact (ih h2).trans (Nat.le_max_right _ _)

theorem splitext_length (s : String) :
    (splitext s).1.length + (splitext s).2.length = s.length := by
  unfold splitext
  cases h : lastDotIdx s.data with
  | none =>
    show s.length + ("" : String).length = s.length
    rfl
  | some i =>
    by_cases ha : (s.data.take i).all (fun c => c == '.')
    · simp only [ha, if_true]
      show s.length + ("" : String).length = s.length
      rfl
    · simp only [ha, Bool.false_eq_true, if_false]
      show (s.data.take i).length + (s.data.drop i).length = s.data.length
      rw [List.length_take, List.length_drop]
      omega

theorem natDigitsAux_ne_nil (fuel n : Nat) : natDigitsAux fuel n ≠ [] := by
  cases fuel with
  | zero => simp [natDigitsAux]
  | succ f =>
    unfold natDigitsAux
    by_cases h : n < 10 <;> simp [h]

theorem natToStr_length_pos (n : Nat) : 0 < (natToStr n).length := by
  show 0 < (natDigitsAux n n).length
  have := natDigitsAux_ne_nil n n
  cases h : natDigitsAux n n with
  | nil => exact absurd h this
  | cons a t => simp

theorem addV_length_lt (file_name : String) (counter : Nat) :
    file_name.length < (addV file_name counter).length := by
  unfold addV
  have h1 := splitext_length file_name
  have h2 := natToStr_length_pos counter
  simp only [String.length_append]
  have hv : ("_v" : String).length = 2 := rfl
  omega

/-- The `while dummy_path.exists()` loop of `_create_commit`: suffix `_v{n}`
(re-splitting the extension each time) until the name is absent from the
working tree.  Terminates because each pass strictly lengthens the name. -/
def ensure_unique (existing : List String) (file_name : String) (counter : Nat) : String :=
  if h : file_name ∈ existing then
    ensure_unique existing (addV file_name counter) (counter + 1)
  else file_name
termination_by maxLen existing + 1 - file_name.length
decreasing_by
  have h1 : file_name.length ≤ maxLen existing := length_le_maxLen h
  have h2 := addV_length_lt file_name counter
  omega

theorem ensure_unique_not_mem (existing : List String) (file_name : String) (counter : Nat) :
    ensure_unique existing file_name counter ∉ existing := by
  by_cases h : file_name ∈ existing
  · rw [ensure_unique, dif_pos h]
    exact ensure_unique_not_mem existing (addV file_name counter) (counter + 1)
  · rw [ensure_unique, dif_neg h]
    exact h
termination_by maxLen existing + 1 - file_name.length
decreasing_by
  have h1 : file_name.length ≤ maxLen existing := length_le_maxLen h
  have h2 := addV_length_lt file_name counter
  omega

/-- The filename a single `_create_commit` call settles on, given the set of
files already present in the working tree. -/
def create_commit_filename (existing : List String) (commit_index r : Nat) (ts : String) :
    String :=
  ensure_unique existing (generate_realistic_filename commit_index r ts) 1

/-- The filenames produced by `GitStrategy.run`'s loop
(`for i in range(commits): self._create_commit(...)`): one file per commit,
each written to the working tree before the next iteration runs.  `draws` holds
one `(random draw, HHMMSS timestamp)` pair per commit. -/
def run_filenames (existing : List String) (commit_index : Nat) :
    List (Nat × String) → List String
  | [] => []
  | (r, ts) :: rest =>
    let n := create_commit_filename existing commit_index r ts
    n :: run_filenames (n :: existing) (commit_index + 1) rest

/-! ## CLI / config resolution and validation (`main.py`) -/

/-- `commits or config_data.get('commits', 10)`: the Python `or` treats a CLI
value of `0` (and an absent value, `None`) as falsy and falls back to the
config value or the default `10`. -/
def resolve_commits (cli : Option Int) (cfg : Option Int) : Int :=
  match cli with
  | some c => if c ≠ 0 then c else cfg.getD 10
  | none => cfg.getD 10

/-- `days_spread or config_data.get('days_spread', 10)`, same falsy-fallback
shape. -/
def resolve_days (cli : Option Int) (cfg : Option Int) : Int :=
  match cli with
  | some d => if d ≠ 0 then d else cfg.getD 10
  | none => cfg.getD 10

/-- The configuration-error taxonomy of `main.py`'s validation block. -/
inductive ConfigError where
  | badPath : ConfigError
  | nonPositiveCommits : ConfigError
  | negativeDays : ConfigError
deriving DecidableEq

/-- The validation block of `main`, in source order (path, then commit count,
then day spread). -/
def validate_config (repoExists : Bool) (commitsV daysV : Int) : Option ConfigError :=
  if ¬repoExists then some .badPath
  else if commitsV ≤ 0 then some .nonPositiveCommits
  else if daysV < 0 then some .negativeDays
  else none

/-- `main` up to the point where `GitStrategy.run` is invoked: on a validation
error it aborts (`.error`) before any commit is created; otherwise the run
creates `resolve_commits ...` commits (`.ok n`). -/
def main_run (repoExists : Bool) (cliCommits cfgCommits cliDays cfgDays : Option Int) :
    Except ConfigError Int :=
  let c := resolve_commits cliCommits cfgCommits
  let d := resolve_days cliDays cfgDays
  match validate_config repoExists c d with
  | some e => .error e
  | none => .ok c

/-! ## Commit back-dating (`_create_commit` timestamp computation) -/

/-- How far before "now" a commit is dated, in minutes:
`datetime.now() - timedelta(days=days_ago, hours=h, minutes=m)` with
`h = random.randint(0, 23)` and `m = random.randint(0, 59)`. -/
def commit_offset_minutes (days_ago h m : Nat) : Nat :=
  days_ago * 1440 + h * 60 + m

/-- The per-commit offsets of a whole run: `run` passes the *same* `days_ago`
to every `_create_commit` call; only the hour/minute jitter varies. -/
def run_offsets (days_ago : Nat) (draws : List (Nat × Nat)) : List Nat :=
  draws.map (fun p => commit_offset_minutes days_ago p.1 p.2)

/-- `random.choice` over the author pool in `_create_commit`. -/
def pick_author (r : Nat) (authors : List Actor) : Actor :=
  authors.getD (r % authors.length) ⟨"", ""⟩

theorem pick_author_mem (authors : List Actor) (r : Nat) (h : authors ≠ []) :
    pick_author r authors ∈ authors := by
  have hl : 0 < authors.length := List.length_pos.mpr h
  have hm : r % authors.length < authors.length := Nat.mod_lt _ hl
  unfold pick_author
  rw [List.getD_eq_getElem authors _ hm]
  exact List.getElem_mem hm

/-! ## Theorems -/

theorem run_filenames_spec (draws : List (Nat × String)) :
    ∀ (existing : List String) (i : Nat),
      (run_filenames existing i draws).length = draws.length
      ∧ (run_filenames existing i draws).Nodup
      ∧ ∀ x ∈ run_filenames existing i draws, x ∉ existing := by
  induction draws with
  | nil => intro existing i; simp [run_filenames]
  | cons d rest ih =>
    intro existing i
    obtain ⟨r, ts⟩ := d
    simp only [run_filenames]
    obtain ⟨ihlen, ihnd, ihfresh⟩ :=
      ih (create_commit_filename existing i r ts :: existing) (i + 1)
    refine ⟨by simp [ihlen], ?_, ?_⟩
    · refine List.nodup_cons.mpr ⟨?_, ihnd⟩
      intro hmem
      exact (ihfresh _ hmem) (List.mem_cons_self _ _)
    · intro x hx
      rcases List.mem_cons.mp hx with rfl | hx2
      · exact ensure_unique_not_mem existing _ 1
      · intro hxe
        exact ihfresh x hx2 (List.mem_cons_of_mem _ hxe)

/-- C1: for every requested commit count N > 0 and day-spread D ≥ 0, a run of
`GitStrategy.run` creates exactly N new commits (one filename per draw), every
generated filename is distinct within the run and absent from the pre-existing
working tree, the `_v{n}` collision loop always terminates on a path that did
not previously exist, and each candidate name is the chosen base suffixed with
the commit index and the HHMMSS timestamp. -/
theorem run_creates_n_fresh_distinct_filenames
    (N : Nat) (D : Int) (existing : List String) (draws : List (Nat × String))
    (_hN : 0 < N) (_hD : 0 ≤ D) (hdraws : draws.length = N) :
    (run_filenames existing 0 draws).length = N
    ∧ (run_filenames existing 0 draws).Nodup
    ∧ (∀ x ∈ run_filenames existing 0 draws, x ∉ existing)
    ∧ (∀ (fs : List String) (file_name : String) (counter : Nat),
        ensure_unique fs file_name counter ∉ fs)
    ∧ (∀ i r : Nat, ∀ ts : String, generate_realistic_filename i r ts =
        (splitext (pickAt r (file_candidates i))).1 ++ "_" ++ natToStr i ++ "_" ++ ts
          ++ (splitext (pickAt r (file_candidates i))).2) := by
  obtain ⟨h1, h2, h3⟩ := run_filenames_spec draws existing 0
  exact ⟨hdraws ▸ h1, h2, h3,
    fun fs f c => ensure_unique_not_mem fs f c,
    fun i r ts => rfl⟩

theorem run_creates_n_fresh_distinct_filenames_witness :
    (run_filenames [] 0 [(0, "120000")]).length = 1
    ∧ (run_filenames [] 0 [(0, "120000")]).Nodup := by
  have h := run_creates_n_fresh_distinct_filenames 1 0 [] [(0, "120000")]
    (by decide) (by decide) (by decide)
  exact ⟨h.1, h.2.1⟩

/-- C7: contrary to the claim, every commit of a run shares the single fixed
day offset `days_spread`: with `days_spread = 10` the two commits drawn at
(hour 5, minute 0) and (hour 6, minute 0) are back-dated by 14700 and 14760
minutes, both strictly more than 10 days (14400 minutes) and both landing
exactly 10 whole days back — the offsets are never spread across the 10-day
window. -/
theorem run_offsets_fixed_day_offset :
    run_offsets 10 [(5, 0), (6, 0)] = [14700, 14760]
    ∧ commit_offset_minutes 10 5 0 > 10 * 1440
    ∧ commit_offset_minutes 10 6 0 > 10 * 1440
    ∧ commit_offset_minutes 10 5 0 / 1440 = 10
    ∧ commit_offset_minutes 10 6 0 / 1440 = 10 := by
  exact ⟨by decide, by decide, by decide, by decide, by decide⟩

/-- C8 counterexample: a requested commit count of 0 on the CLI is swallowed by
the Python `or` fallback — with no config value the run proceeds and creates
the default 10 commits instead of aborting with a configuration error. -/
theorem cli_zero_commit_count_runs_default :
    main_run true (some 0) none none none = .ok 10
    ∧ resolve_commits (some 0) none = 10 := by
  exact ⟨rfl, rfl⟩

/-- C8 (amended): a negative CLI commit count, and a non-positive config-file
commit count (with no CLI override), are reported as configuration errors
before any commit is made; a CLI count of exactly 0 is treated as absent and
silently replaced by the config value or the default 10. -/
theorem main_validation_aborts_amended
    (repoExists : Bool) (cliC cfgC cliD cfgD : Option Int) :
    (∀ c : Int, cliC = some c → c < 0 →
      ∃ e, main_run repoExists cliC cfgC cliD cfgD = .error e)
    ∧ (cliC = none → ∀ c : Int, cfgC = some c → c ≤ 0 →
      ∃ e, main_run repoExists cliC cfgC cliD cfgD = .error e)
    ∧ (∀ cfg : Option Int, resolve_commits (some 0) cfg = cfg.getD 10) := by
  have hval : ∀ (re : Bool) (cv dv : Int), cv ≤ 0 →
      ∃ e, validate_config re cv dv = some e := by
    intro re cv dv hcv
    unfold validate_config
    by_cases hre : ¬re = true
    · rw [if_pos hre]; exact ⟨_, rfl⟩
    · rw [if_neg hre, if_pos hcv]; exact ⟨_, rfl⟩
  have hmain : ∀ (re : Bool) (c1 c2 d1 d2 : Option Int) (e : ConfigError),
      validate_config re (resolve_commits c1 c2) (resolve_days d1 d2) = some e →
      main_run re c1 c2 d1 d2 = .error e := by
    intro re c1 c2 d1 d2 e h
    show (match validate_config re (resolve_commits c1 c2) (resolve_days d1 d2) with
          | some e => Except.error e
          | none => Except.ok (resolve_commits c1 c2)) = Except.error e
    rw [h]
  refine ⟨?_, ?_, fun cfg => rfl⟩
  · intro c hc hneg
    subst hc
    have hres : resolve_commits (some c) cfgC = c := by
      show (if c ≠ 0 then c else cfgC.getD 10) = c
      rw [if_pos (by omega : c ≠ 0)]
    obtain ⟨e, he⟩ := hval repoExists (resolve_commits (some c) cfgC)
      (resolve_days cliD cfgD) (by rw [hres]; omega)
    exact ⟨e, hmain _ _ _ _ _ _ he⟩
  · intro hc c hcfg hle
    subst hc; subst hcfg
    have hres : resolve_commits none (some c) = c := rfl
    obtain ⟨e, he⟩ := hval repoExists (resolve_commits none (some c))
      (resolve_days cliD cfgD) (by rw [hres]; exact hle)
    exact ⟨e, hmain _ _ _ _ _ _ he⟩

theorem main_validation_aborts_amended_witness :
    (∃ e, main_run true (some (-1)) none none none = .error e)
    ∧ (∃ e, main_run true none (some 0) none none = .error e) := by
  exact ⟨(main_validation_aborts_amended true (some (-1)) none none none).1 (-1) rfl
      (by decide),
    (main_validation_aborts_amended true none (some 0) none none).2.1 rfl 0 rfl
      (by decide)⟩

/-- C10: for every configuration author list (including lists whose entries are
not dicts or lack name/email) and every state of the GIT_AUTHORS variable
(missing, empty, or malformed), `_get_authors` returns a non-empty list, so the
per-commit uniform author draw is always well-defined. -/
theorem get_authors_never_empty
    (configAuthors : Option (List ConfigAuthor)) (env : Option String) :
    0 < (get_authors configAuthors env).length
    ∧ ∀ r : Nat, pick_author r (get_authors configAuthors env)
        ∈ get_authors configAuthors env := by
  have henv : ∀ s : String, 0 < (env_actor_list s).length := by
    intro s
    unfold env_actor_list
    split_ifs with h1 h2
    · decide
    · exact List.length_pos.mpr h2
    · decide
  have hlen : 0 < (get_authors configAuthors env).length := by
    unfold get_authors
    split_ifs with h1
    · exact List.length_pos.mpr h1
    · exact henv _
  refine ⟨hlen, fun r => ?_⟩
  exact pick_author_mem _ r (by
    intro hnil
    rw [hnil] at hlen
    exact absurd hlen (by decide))

/-- An example history: 10 prior commits, 7 starting with `feat:`, 1 with
`fix:`, 2 neutral. -/
def demo_history : List String :=
  ["feat: m1", "feat: m2", "feat: m3", "feat: m4", "feat: m5", "feat: m6",
   "feat: m7", "fix: m8", "chore: m9", "build: m10"]

/-- C3: the inspector sets `development_phase` by the fixed threshold rules in
priority order, for every history of at most 20 messages; in particular 10
prior commits with 7 `feat:` and 1 `fix:` yield `feature_development`. -/
theorem development_phase_threshold_rules (messages : List String)
    (hlen : messages.length ≤ 20) :
    (messages.length < 5 → development_phase_of messages = "initial")
    ∧ (5 ≤ messages.length →
        count_starts messages "feat:" > 2 * count_starts messages "fix:" →
        development_phase_of messages = "feature_development")
    ∧ (5 ≤ messages.length →
        count_starts messages "feat:" ≤ 2 * count_starts messages "fix:" →
        count_starts messages "fix:" > count_starts messages "feat:" →
        development_phase_of messages = "bug_fixing")
    ∧ (5 ≤ messages.length →
        count_starts messages "feat:" ≤ 2 * count_starts messages "fix:" →
        count_starts messages "fix:" ≤ count_starts messages "feat:" →
        10 * count_starts messages "docs:" > 3 * messages.length →
        development_phase_of messages = "documentation")
    ∧ (5 ≤ messages.length →
        count_starts messages "feat:" ≤ 2 * count_starts messages "fix:" →
        count_starts messages "fix:" ≤ count_starts messages "feat:" →
        10 * count_starts messages "docs:" ≤ 3 * messages.length →
        5 * count_starts messages "test:" > messages.length →
        development_phase_of messages = "testing")
    ∧ (5 ≤ messages.length →
        count_starts messages "feat:" ≤ 2 * count_starts messages "fix:" →
        count_starts messages "fix:" ≤ count_starts messages "feat:" →
        10 * count_starts messages "docs:" ≤ 3 * messages.length →
        5 * count_starts messages "test:" ≤ messages.length →
        (0 < count_starts messages "perf:" ∨ 0 < count_starts messages "refactor:") →
        development_phase_of messages = "optimization")
    ∧ (5 ≤ messages.length →
        count_starts messages "feat:" ≤ 2 * count_starts messages "fix:" →
        count_starts messages "fix:" ≤ count_starts messages "feat:" →
        10 * count_starts messages "docs:" ≤ 3 * messages.length →
        5 * count_starts messages "test:" ≤ messages.length →
        count_starts messages "perf:" = 0 → count_starts messages "refactor:" = 0 →
        development_phase_of messages = "maintenance")
    ∧ development_phase_of demo_history = "feature_development" := by
  refine ⟨?_, ?_, ?_, ?_, ?_, ?_, ?_, by decide⟩ <;>
    · intros
      unfold development_phase_of
      split_ifs <;> first | rfl | (exfalso; omega)

theorem development_phase_threshold_rules_witness :
    development_phase_of demo_history = "feature_development" := by
  have h := development_phase_threshold_rules demo_history (by decide)
  exact (h.2.1 (by decide) (by decide))

theorem filter_length_eq_iff {α : Type} (p : α → Bool) (l : List α) :
    (l.filter p).length = l.length ↔ ∀ x ∈ l, p x = true := by
  induction l with
  | nil => simp
  | cons a t ih =>
    by_cases h : p a
    · simp only [List.filter_cons, h, if_true, List.length_cons, Nat.add_right_cancel_iff,
        List.mem_cons]
      constructor
      · intro he x hx
        rcases hx with rfl | hx2
        · exact h
        · exact (ih.mp he) x hx2
      · intro hall
        exact ih.mpr (fun x hx => hall x (Or.inr hx))
    · simp only [List.filter_cons, h, Bool.false_eq_true, if_false, List.length_cons]
      have hle := List.length_filter_le p t
      constructor
      · intro he; omega
      · intro hall
        exact absurd (hall a (List.mem_cons_self a t)) (by simpa using h)

theorem modified_type_mem (l : List String) :
    modified_type l ∈ (["fix", "docs", "config"] : List String) := by
  induction l with
  | nil => decide
  | cons f rest ih =>
    unfold modified_type
    split_ifs <;> first | decide | exact ih

/-- C4: `_generate_commit_type` is a pure function of the change set with
codomain {feat, fix, docs, refactor, config, chore}: non-empty `added` gives
`docs` iff every added file has a doc-like extension and `feat` otherwise;
otherwise non-empty `deleted` gives `refactor`; otherwise non-empty `modified`
is scanned in file order for the first matching extension bucket (default
`fix`); otherwise `chore`.  The change set with only `README.md` modified
yields `docs`. -/
theorem generate_commit_type_spec (changes : Changes) :
    generate_commit_type changes
      ∈ (["feat", "fix", "docs", "refactor", "config", "chore"] : List String)
    ∧ (changes.added ≠ [] →
        ((∀ f ∈ changes.added,
            [".md", ".txt", ".rst"].contains (get_file_extension f) = true) →
          generate_commit_type changes = "docs")
        ∧ ((¬ ∀ f ∈ changes.added,
            [".md", ".txt", ".rst"].contains (get_file_extension f) = true) →
          generate_commit_type changes = "feat"))
    ∧ (changes.added = [] → changes.deleted ≠ [] →
        generate_commit_type changes = "refactor")
    ∧ (changes.added = [] → changes.deleted = [] → changes.modified ≠ [] →
        generate_commit_type changes = modified_type changes.modified)
    ∧ (changes.added = [] → changes.deleted = [] → changes.modified = [] →
        generate_commit_type changes = "chore")
    ∧ generate_commit_type ⟨[], ["README.md"], [], []⟩ = "docs" := by
  have h6 : ∀ x ∈ (["fix", "docs", "config"] : List String),
      x ∈ (["feat", "fix", "docs", "refactor", "config", "chore"] : List String) := by
    decide
  refine ⟨?_, ?_, ?_, ?_, ?_, by decide⟩
  · unfold generate_commit_type
    split_ifs <;>
      first
        | decide
        | exact h6 _ (modified_type_mem changes.modified)
  · intro hadd
    constructor
    · intro hall
      unfold generate_commit_type
      rw [if_pos hadd, if_pos]
      constructor
      · rw [ne_eq, ← List.length_eq_zero]
        unfold docs_added
        rw [(filter_length_eq_iff _ _).mpr hall]
        intro h0
        exact hadd (List.length_eq_zero.mp h0)
      · exact (filter_length_eq_iff _ _).mpr hall
    · intro hnall
      unfold generate_commit_type
      rw [if_pos hadd, if_neg]
      intro hcon
      exact hnall ((filter_length_eq_iff _ _).mp hcon.2)
  · intro hadd hdel
    unfold generate_commit_type
    rw [if_neg (by simp [hadd]), if_pos hdel]
  · intro hadd hdel hmod
    unfold generate_commit_type
    rw [if_neg (by simp [hadd]), if_neg (by simp [hdel]), if_pos hmod]
  · intro hadd hdel hmod
    unfold generate_commit_type
    rw [if_neg (by simp [hadd]), if_neg (by simp [hdel]), if_neg (by simp [hmod])]

theorem generate_commit_type_spec_witness :
    generate_commit_type ⟨["README.md"], [], [], []⟩ = "docs"
    ∧ generate_commit_type ⟨[], [], [], []⟩ = "chore" := by
  refine ⟨?_, ?_⟩
  · exact ((generate_commit_type_spec ⟨["README.md"], [], [], []⟩).2.1
      (by decide)).1 (by decide)
  · exact (generate_commit_type_spec ⟨[], [], [], []⟩).2.2.2.2.1 rfl rfl rfl

theorem commit_patterns_get_ne_nil (category : String) :
    commit_patterns_get category ≠ [] := by
  unfold commit_patterns_get
  split_ifs <;> decide

theorem commit_patterns_get_all_ok (category : String) :
    (commit_patterns_get category).all msgOk = true := by
  unfold commit_patterns_get
  split_ifs <;> decide

theorem project_type_msgs_all_ok (project_type : String) :
    (project_type_msgs project_type).all msgOk = true := by
  unfold project_type_msgs
  split_ifs <;> decide

theorem recent_focus_msgs_all_ok (recent_focus : String) :
    (recent_focus_msgs recent_focus).all msgOk = true := by
  unfold recent_focus_msgs
  split_ifs <;> decide

theorem message_pool_all_ok (category project_type recent_focus : String) :
    (message_pool category project_type recent_focus).all msgOk = true := by
  unfold message_pool
  rw [List.all_append, List.all_append]
  rw [commit_patterns_get_all_ok, project_type_msgs_all_ok, recent_focus_msgs_all_ok]
  rfl

/-- C5: for every category, project type and recent focus, the synthesized
realistic commit message is a member of the combined candidate pool (5 fixed
category literals, plus the 3 project-type literals for
python_app/web_app/node_app, plus the 3 recent-focus literals for
api/testing/documentation), hence a non-empty string starting with one of the
markers feat:, fix:, docs:, test:, config:, security:, refactor:, perf:. -/
theorem synthesize_message_in_pool_with_marker
    (category project_type recent_focus : String) (r : Nat) :
    synthesize_message category project_type recent_focus r
      ∈ message_pool category project_type recent_focus
    ∧ synthesize_message category project_type recent_focus r ≠ ""
    ∧ msgOk (synthesize_message category project_type recent_focus r) = true := by
  have hne : message_pool category project_type recent_focus ≠ [] := by
    unfold message_pool
    intro h
    exact commit_patterns_get_ne_nil category (List.append_eq_nil.mp
      (List.append_eq_nil.mp h).1).1
  have hmem : synthesize_message category project_type recent_focus r
      ∈ message_pool category project_type recent_focus := pickAt_mem _ r hne
  have hok : msgOk (synthesize_message category project_type recent_focus r) = true :=
    List.all_eq_true.mp (message_pool_all_ok category project_type recent_focus) _ hmem
  refine ⟨hmem, ?_, hok⟩
  intro h0
  rw [h0] at hok
  exact absurd hok (by decide)

theorem classify_mem_twelve (p : Profile) (i r : Nat) :
    classify p i r ∈ twelve_categories := by
  have hsub1 : ∀ x ∈ (["performance", "refactoring"] : List String),
      x ∈ twelve_categories := by decide
  have hsub2 : ∀ x ∈ (["api_development", "database", "frontend"] : List String),
      x ∈ twelve_categories := by decide
  have hsub3 : ∀ x ∈ (["testing", "documentation", "configuration"] : List String),
      x ∈ twelve_categories := by decide
  have hsub4 : ∀ x ∈ (["bug_fixes", "performance", "refactoring", "security"] : List String),
      x ∈ twelve_categories := by decide
  unfold classify
  split_ifs <;>
    first
      | decide
      | exact hsub1 _ (pickAt_mem _ _ (by decide))
      | exact hsub2 _ (pickAt_mem _ _ (by decide))
      | exact hsub3 _ (pickAt_mem _ _ (by decide))
      | exact hsub4 _ (pickAt_mem _ _ (by decide))

theorem classify_deterministic (p : Profile) (i r r2 : Nat)
    (h : p.development_phase ∈ (["initial", "feature_development", "bug_fixing",
        "documentation", "testing"] : List String) ∨ i < 3) :
    classify p i r = classify p i r2 := by
  unfold classify
  rcases h with hm | hi
  · generalize p.development_phase = d at hm ⊢
    fin_cases hm <;> simp
  · simp [hi]

theorem classify_optimization (p : Profile) (i r : Nat)
    (hphase : p.development_phase = "optimization") (hi : ¬ i < 3) :
    classify p i r ∈ (["performance", "refactoring"] : List String) := by
  unfold classify
  rw [hphase]
  rw [if_neg (by push_neg; exact ⟨by decide, by omega⟩), if_neg (by decide), if_neg (by decide),
    if_neg (by decide), if_neg (by decide), if_pos rfl]
  exact pickAt_mem ["performance", "refactoring"] r (by decide)

theorem classify_index_fallback (p : Profile) (i r : Nat)
    (h : p.development_phase ∉ (["initial", "feature_development", "bug_fixing",
        "documentation", "testing", "optimization"] : List String))
    (hi : ¬ i < 3) :
    (i < 8 → classify p i r = "core_features")
    ∧ (8 ≤ i → i < 12 →
        classify p i r ∈ (["api_development", "database", "frontend"] : List String))
    ∧ (12 ≤ i → i < 15 →
        classify p i r ∈ (["testing", "documentation", "configuration"] : List String))
    ∧ (15 ≤ i →
        classify p i r ∈ (["bug_fixes", "performance", "refactoring", "security"] : List String)) := by
  simp only [List.mem_cons, List.not_mem_nil, or_false, not_or] at h
  obtain ⟨h1, h2, h3, h4, h5, h6⟩ := h
  unfold classify
  rw [if_neg (by tauto), if_neg h2, if_neg h3, if_neg h4, if_neg h5, if_neg h6]
  refine ⟨?_, ?_, ?_, ?_⟩
  · intro h8
    rw [if_pos h8]
  · intro h8 h12
    rw [if_neg (by omega), if_pos h12]
    exact pickAt_mem _ _ (by decide)
  · intro h12 h15
    rw [if_neg (by omega), if_neg (by omega), if_pos h15]
    exact pickAt_mem _ _ (by decide)
  · intro h15
    rw [if_neg (by omega), if_neg (by omega), if_neg (by omega)]
    exact pickAt_mem _ _ (by decide)

/-- C2: for every profile and commit index, the category-selection block of
`_generate_realistic_commit_message` always returns one of the 12 categories;
when `development_phase` is initial, feature_development, bug_fixing,
documentation or testing, or `commit_index < 3`, the result is independent of
the random draw, and in the optimization and index-fallback branches the
result lies in the documented finite candidate set of that branch. -/
theorem classify_category_spec (p : Profile) (i r r2 : Nat) :
    classify p i r ∈ twelve_categories
    ∧ ((p.development_phase ∈ (["initial", "feature_development", "bug_fixing",
          "documentation", "testing"] : List String) ∨ i < 3) →
        classify p i r = classify p i r2)
    ∧ (p.development_phase = "optimization" → ¬ i < 3 →
        classify p i r ∈ (["performance", "refactoring"] : List String))
    ∧ (p.development_phase ∉ (["initial", "feature_development", "bug_fixing",
          "documentation", "testing", "optimization"] : List String) → ¬ i < 3 →
        (i < 8 → classify p i r = "core_features")
        ∧ (8 ≤ i → i < 12 →
            classify p i r ∈ (["api_development", "database", "frontend"] : List String))
        ∧ (12 ≤ i → i < 15 →
            classify p i r ∈ (["testing", "documentation", "configuration"] : List String))
        ∧ (15 ≤ i →
            classify p i r
              ∈ (["bug_fixes", "performance", "refactoring", "security"] : List String))) :=
  ⟨classify_mem_twelve p i r,
   classify_deterministic p i r r2,
   fun hp hi => classify_optimization p i r hp hi,
   fun hp hi => classify_index_fallback p i r hp hi⟩

/-- A maintenance-phase profile used to exercise the index fallback branch. -/
def maintenance_profile : Profile :=
  { main_language := "python"
    project_type := "unknown"
    has_tests := false
    has_docs := false
    has_config := false
    development_phase := "maintenance"
    recent_focus := "setup"
    feature_areas := [] }

theorem classify_category_spec_witness :
    classify maintenance_profile 0 0 = classify maintenance_profile 0 1
    ∧ classify maintenance_profile 9 1
        ∈ (["api_development", "database", "frontend"] : List String) := by
  refine ⟨(classify_category_spec maintenance_profile 0 0 1).2.1 (Or.inr (by decide)), ?_⟩
  exact ((classify_category_spec maintenance_profile 9 1 1).2.2.2 (by decide)
    (by decide)).2.1 (by decide) (by decide)

/-- C6 counterexample: on an empty repository the language tally is all-zero
and Python's `max` over the six-key dict returns its first key, so
`main_language` is `"python"`, not `"unknown"` as the claim states. -/
theorem empty_repo_main_language_is_python :
    (analyze_repository_structure [] none).main_language = "python"
    ∧ (analyze_repository_structure [] none).main_language ≠ "unknown" := by
  exact ⟨rfl, by decide⟩

/-- C6 (amended): for commit_index = 0 on an empty repository the derived
profile has development_phase = initial and main_language = python (the
all-zero language tally makes `max` return its first key); project_type is
unknown and recent_focus is setup, the classifier selects initial_setup for
any draw, the synthesized message is one of the 5 literal initial_setup
strings, and the chosen filename base is one of setup.py, requirements.txt,
README.md, config.py, main.py. -/
theorem empty_repo_initial_commit_scenario (r r2 r3 : Nat) :
    (analyze_repository_structure [] none).development_phase = "initial"
    ∧ (analyze_repository_structure [] none).main_language = "python"
    ∧ (analyze_repository_structure [] none).project_type = "unknown"
    ∧ (analyze_repository_structure [] none).recent_focus = "setup"
    ∧ classify (analyze_repository_structure [] none) 0 r = "initial_setup"
    ∧ synthesize_message "initial_setup" (analyze_repository_structure [] none).project_type
        (analyze_repository_structure [] none).recent_focus r2 ∈ initial_setup_msgs
    ∧ pickAt r3 (file_candidates 0)
        ∈ (["setup.py", "requirements.txt", "README.md", "config.py", "main.py"] : List String) := by
  refine ⟨rfl, rfl, rfl, rfl, ?_, ?_, ?_⟩
  · unfold classify
    rw [if_pos (Or.inr (by omega : (0 : Nat) < 3))]
  · have hpool : message_pool "initial_setup"
        (analyze_repository_structure [] none).project_type
        (analyze_repository_structure [] none).recent_focus = initial_setup_msgs := by
      decide
    show pickAt r2 (message_pool "initial_setup"
      (analyze_repository_structure [] none).project_type
      (analyze_repository_structure [] none).recent_focus) ∈ initial_setup_msgs
    rw [hpool]
    exact pickAt_mem initial_setup_msgs r2 (by decide)
  · have hc : file_candidates 0
        = ["setup.py", "requirements.txt", "README.md", "config.py", "main.py"] := rfl
    rw [hc]
    exact pickAt_mem _ r3 (by decide)

/-! ## The ChangeSet non-emptiness invariant (C9) -/

/-- Total number of entries across the four categories of a change set. -/
def changesSize (c : Changes) : Nat :=
  c.added.length + c.modified.length + c.deleted.length + c.renamed.length

/-- Whether one diff line is recognized by the parsing loop of
`_analyze_changes`: non-blank, at least two tab-separated fields, and a status
of `A`, `M`, `D`, or `R` with a third field. -/
def recognizedLine (line : List Char) : Bool :=
  !(trimChars line).isEmpty &&
    match splitCh '\t' line with
    | s :: _ :: rest2 =>
      s = ['A'] || s = ['M'] || s = ['D'] || (s = ['R'] && !rest2.isEmpty)
    | _ => false

theorem applyDiffLine_size (line : List Char) (c : Changes) :
    changesSize (applyDiffLine line c) =
      changesSize c + (if recognizedLine line then 1 else 0) := by
  unfold applyDiffLine recognizedLine
  by_cases ht : (trimChars line).isEmpty
  · simp [ht]
  · simp only [ht, Bool.not_false, Bool.true_and, if_neg ht, Bool.false_eq_true]
    cases hs : splitCh '\t' line with
    | nil => simp
    | cons s tl =>
      cases tl with
      | nil => simp
      | cons p rest2 =>
        by_cases hA : s = ['A']
        · simp [hA, changesSize]; omega
        · by_cases hM : s = ['M']
          · simp [hA, hM, changesSize]; omega
          · by_cases hD : s = ['D']
            · simp [hA, hM, hD, changesSize]; omega
            · by_cases hR : s = ['R']
              · cases rest2 with
                | nil => simp [hA, hM, hD, hR, changesSize]
                | cons q tl2 => simp [hA, hM, hD, hR, changesSize]; omega
              · simp [hA, hM, hD, hR]

theorem parseDiffLines_pos_of_recognized (lines : List (List Char)) (line : List Char)
    (hmem : line ∈ lines) (hrec : recognizedLine line = true) :
    0 < changesSize (parseDiffLines lines) := by
  induction lines with
  | nil => cases hmem
  | cons l rest ih =>
    show 0 < changesSize (applyDiffLine l (parseDiffLines rest))
    rw [applyDiffLine_size]
    rcases List.mem_cons.mp hmem with rfl | h2
    · rw [hrec, if_pos rfl]
      omega
    · have := ih h2
      omega

/-- C9 counterexample: a non-blank staged diff consisting of the single
unrecognized status line `T<tab>file.py` yields a change set with all four
categories empty — no dummy fallback happens even though the diff produced no
recognized entries. -/
theorem nonblank_unrecognized_diff_all_empty :
    isBlank "T\tfile.py" = false
    ∧ (analyze_changes "T\tfile.py" "" 0).added = []
    ∧ (analyze_changes "T\tfile.py" "" 0).modified = []
    ∧ (analyze_changes "T\tfile.py" "" 0).deleted = []
    ∧ (analyze_changes "T\tfile.py" "" 0).renamed = [] := by
  exact ⟨rfl, rfl, rfl, rfl, rfl⟩

/-- C9 (amended): the dummy fallback (a change set with exactly one added
entry and all other categories empty) occurs exactly when both the staged and
unstaged diff texts are blank: a non-blank staged diff is parsed, a blank
staged diff with a non-blank unstaged diff parses the unstaged one, and the
parse result has at least one non-empty category whenever some line is a
recognized `A`/`M`/`D`/`R` entry — but a non-blank diff with no recognized
entries yields an all-empty change set. -/
theorem analyze_changes_fallback_amended (staged unstaged : String) (r : Nat) :
    (isBlank staged = true → isBlank unstaged = true →
      analyze_changes staged unstaged r = create_dummy_changes r
      ∧ (create_dummy_changes r).added.length = 1
      ∧ (create_dummy_changes r).modified = []
      ∧ (create_dummy_changes r).deleted = []
      ∧ (create_dummy_changes r).renamed = [])
    ∧ (isBlank staged = false → analyze_changes staged unstaged r = parse_diff staged)
    ∧ (isBlank staged = true → isBlank unstaged = false →
        analyze_changes staged unstaged r = parse_diff unstaged)
    ∧ (∀ diff : String, ∀ line ∈ splitCh '\n' (trimChars diff.data),
        recognizedLine line = true → 0 < changesSize (parse_diff diff)) := by
  refine ⟨?_, ?_, ?_, ?_⟩
  · intro hs hu
    refine ⟨?_, rfl, rfl, rfl, rfl⟩
    unfold analyze_changes
    rw [if_pos hs, if_pos hu]
  · intro hs
    unfold analyze_changes
    rw [if_neg (by simp [hs]), if_neg (by simp [hs])]
  · intro hs hu
    unfold analyze_changes
    rw [if_pos hs, if_neg (by simp [hu])]
  · intro diff line hmem hrec
    exact parseDiffLines_pos_of_recognized _ line hmem hrec

theorem analyze_changes_fallback_amended_witness :
    analyze_changes "" "" 0 = create_dummy_changes 0
    ∧ analyze_changes "" "A\tg.py" 0 = parse_diff "A\tg.py"
    ∧ 0 < changesSize (parse_diff "A\tf.py") := by
  refine ⟨((analyze_changes_fallback_amended "" "" 0).1 rfl rfl).1, ?_, ?_⟩
  · exact (analyze_changes_fallback_amended "" "A\tg.py" 0).2.2.1 rfl (by decide)
  · exact (analyze_changes_fallback_amended "" "" 0).2.2.2 "A\tf.py"
      ("A\tf.py".data) (by decide) (by decide)

end GitForge
